import Mathlib

/-!
Verification of the Museum-Interaction-Project transcription pipeline.

The Python source is shallowly embedded: external effects (the inference
service, JSON parsing from the standard library, file writes) are passed
as explicit oracles or recorded as event lists; every other definition is
a direct translation of the corresponding Python function.
-/

namespace Museum

/-- Outcome record produced by `ImageTranscriber.transcribe_image`
(src/image_transcriber.py): filename, extracted text, success flag,
optional error description. -/
structure TranscriptionItem where
  filename : String
  text : String
  success : Bool
  err : Option String
deriving DecidableEq, Repr

/-- Embedding of `ImageTranscriber.transcribe_image`
(src/image_transcriber.py lines 107-174).  The whole body is wrapped in
a `try` that catches every exception; the external call (encoding plus the
inference request) is the oracle `api`, returning either the transcribed
text or the description of the raised exception. -/
def transcribe_image (api : String → Except String String) (imagePath : String) :
    TranscriptionItem :=
  match api imagePath with
  | .ok text => ⟨imagePath, text, true, none⟩
  | .error e => ⟨imagePath, "", false, some e⟩

/-- Embedding of `ImageTranscriber.transcribe_batch`
(src/image_transcriber.py lines 176-199): one `transcribe_image` call per
input path, results appended in input order.  The periodic backup write
(`_save_intermediate_results`) touches no result and is elided. -/
def transcribe_batch (api : String → Except String String)
    (imagePaths : List String) : List TranscriptionItem :=
  imagePaths.map (transcribe_image api)

/-! Image normalizer (`ImageTranscriber.compress_image`, lines 38-85).
The JPEG encoder is external; it is abstracted as an oracle `enc` giving
the encoded byte size of the (orientation-corrected, RGB) image at the
fixed quality.  The embedding records the final size, final dimensions,
and how many encode and resize passes were performed. -/

/-- Trace of one `compress_image` call: final encoded size, final pixel
dimensions, number of encode passes, number of resize passes. -/
structure CompressResult where
  size : Nat
  finalW : Nat
  finalH : Nat
  encodes : Nat
  resizes : Nat
deriving DecidableEq, Repr

/-- Embedding of `ImageTranscriber.compress_image`: encode once at the
given quality; if the result exceeds the byte budget, compute
`ratio = min (2400 / width, 2400 / height)`, resize (truncating to int)
only when `ratio < 1`, and encode exactly once more, returning that
second result unconditionally. -/
def compress_image (enc : Nat → Nat → Nat) (w h : Nat) (maxSizeBytes : Nat) :
    CompressResult :=
  let firstSize := enc w h
  if maxSizeBytes < firstSize then
    let ratio : ℚ := min (2400 / (w : ℚ)) (2400 / (h : ℚ))
    if ratio < 1 then
      let w2 := Int.toNat ⌊(w : ℚ) * ratio⌋
      let h2 := Int.toNat ⌊(h : ℚ) * ratio⌋
      ⟨enc w2 h2, w2, h2, 2, 1⟩
    else ⟨enc w h, w, h, 2, 0⟩
  else ⟨firstSize, w, h, 1, 0⟩

/-! Path suffix handling.  Both the upload validator and the directory
scanner call `Path(name).suffix.lower()`.  CPython returns `name[i:]`
where `i` is the index of the last dot, provided `0 < i < len - 1`,
and the empty string otherwise. -/

/-- Index of the last occurrence of `c` in `cs`, if any. -/
def lastIdxOf (c : Char) (cs : List Char) : Option Nat :=
  ((List.range cs.length).filter (fun i => decide (cs[i]? = some c))).getLast?

/-- Embedding of `pathlib.Path(name).suffix` for a plain file name. -/
def pathSuffix (name : String) : String :=
  let cs := name.toList
  match lastIdxOf '.' cs with
  | some i => if 0 < i ∧ i + 1 < cs.length then String.mk (cs.drop i) else ""
  | none => ""

/-- Embedding of `str.lower()` (character-wise lowering, as used on
ASCII extensions). -/
def lowerStr (s : String) : String :=
  String.mk (s.toList.map Char.toLower)

/-- Embedding of `Path(name).suffix.lower()`. -/
def pathSuffixLower (name : String) : String :=
  lowerStr (pathSuffix name)

/-- Embedding of the Python character slice `s[n:]`. -/
def pyDropStr (n : Nat) (s : String) : String :=
  String.mk (s.toList.drop n)

/-- The extensions routed through compression in
`ImageTranscriber.encode_image` (line 97). -/
def COMPRESS_EXTS : List String := [".jpg", ".jpeg", ".png", ".webp"]

/-- An input image file: name plus raw byte contents. -/
structure ImgFile where
  name : String
  contents : List Nat
deriving DecidableEq, Repr

/-- Embedding of `ImageTranscriber.encode_image` (lines 87-105), before
the final base64 wire encoding: jpg/jpeg/png/webp files go through
`compress_image` (abstracted as the oracle `compress`) and are labelled
`image/jpeg`; every other file is read and returned byte-for-byte with
media type `image/` plus the extension without its dot. -/
def encode_image (compress : ImgFile → List Nat) (f : ImgFile) :
    List Nat × String :=
  let fileExt := pathSuffixLower f.name
  if fileExt ∈ COMPRESS_EXTS then
    (compress f, "image/jpeg")
  else
    (f.contents, "image/" ++ pyDropStr 1 fileExt)

/-! Document compiler (`ImageTranscriber.compile_results`, lines
208-246).  The Python function receives a list of dicts and reads the
keys `success`, `filename`, `text` and `error` with bracket access, so a
missing key raises `KeyError`.  Dicts are embedded with one `Option` per
key and key access in the `Except` monad; the returned document is the
Python line list joined with newlines, with the `datetime.now()`
timestamp passed in as an explicit argument. -/

/-- One entry of the `results` list as a Python dict: each key may be
absent, and the value of the `error` key may itself be `None`. -/
structure ResultDict where
  filename : Option String
  text : Option String
  success : Option Bool
  err : Option (Option String)
deriving DecidableEq, Repr

/-- Python bracket access `r[k]`: the value when the key is present,
`KeyError` otherwise. -/
def getKey (v : Option α) (k : String) : Except String α :=
  match v with
  | some x => .ok x
  | none => .error ("KeyError: " ++ k)

/-- Python `f-string` rendering of a value that is either a string or
`None`. -/
def pyStrOfOptStr : Option String → String
  | none => "None"
  | some s => s

/-- Embedding of `sum(1 for r in results if r['success'])` (line 225),
reading the `success` key of every item left to right. -/
def countSuccesses : List ResultDict → Except String Nat
  | [] => .ok 0
  | r :: rest => do
    let b ← getKey r.success "success"
    let n ← countSuccesses rest
    pure (if b then n + 1 else n)

/-- Embedding of one iteration of the section loop (lines 231-244):
the lines appended for item number `i` (1-based). -/
def renderItem (i : Nat) (r : ResultDict) : Except String (List String) := do
  let s ← getKey r.success "success"
  if s then
    let fn ← getKey r.filename "filename"
    let tx ← getKey r.text "text"
    pure ["## Image " ++ toString i ++ ": " ++ fn, "", tx, "", "---", ""]
  else
    let fn ← getKey r.filename "filename"
    let er ← getKey r.err "error"
    pure ["## Image " ++ toString i ++ ": " ++ fn ++ " [FAILED]",
      "Error: " ++ pyStrOfOptStr er, "", "---", ""]

/-- The section loop over all items, numbering from `i`. -/
def renderAll (i : Nat) : List ResultDict → Except String (List String)
  | [] => .ok []
  | r :: rest => do
    let sec ← renderItem i r
    let tail ← renderAll (i + 1) rest
    pure (sec ++ tail)

/-- Embedding of `ImageTranscriber.compile_results` as the Python
`output` line list before the final join. -/
def compileLines (results : List ResultDict) (title timestamp : String) :
    Except String (List String) := do
  let succ ← countSuccesses results
  let sections ← renderAll 1 results
  pure (["# " ++ title,
    "Transcribed on: " ++ timestamp,
    "Total images processed: " ++ toString results.length,
    "Successful transcriptions: " ++ toString succ,
    "", "---", ""] ++ sections)

/-- Embedding of `ImageTranscriber.compile_results`: the line list
joined with newlines. -/
def compile_results (results : List ResultDict) (title timestamp : String) :
    Except String String :=
  (compileLines results title timestamp).map (String.intercalate "\n")

/-- The dict produced by `transcribe_image`: every key present. -/
def itemDict (it : TranscriptionItem) : ResultDict :=
  ⟨some it.filename, some it.text, some it.success, some it.err⟩

/-- Header of the compiled document as the spec describes it: title,
timestamp, total count, success count, blank line, delimiter, blank. -/
def headerLines (title timestamp : String) (items : List TranscriptionItem) :
    List String :=
  ["# " ++ title,
   "Transcribed on: " ++ timestamp,
   "Total images processed: " ++ toString items.length,
   "Successful transcriptions: " ++ toString (items.filter (·.success)).length,
   "", "---", ""]

/-- Section rendering of one item as the spec describes it: a heading
plus the verbatim text for successes, a heading marked `[FAILED]` plus
the error description for failures. -/
def sectionLines (i : Nat) (it : TranscriptionItem) : List String :=
  if it.success then
    ["## Image " ++ toString i ++ ": " ++ it.filename, "", it.text, "", "---", ""]
  else
    ["## Image " ++ toString i ++ ": " ++ it.filename ++ " [FAILED]",
     "Error: " ++ pyStrOfOptStr it.err, "", "---", ""]

/-- One section per item, in input order, numbered from `i`. -/
def sectionsFrom (i : Nat) : List TranscriptionItem → List String
  | [] => []
  | it :: rest => sectionLines i it ++ sectionsFrom (i + 1) rest

/-- The keys `compile_results` actually reads from an item: `success`
always, `filename` always, `text` on successes and `error` on
failures. -/
def hasRequiredKeys (r : ResultDict) : Prop :=
  r.success.isSome ∧ r.filename.isSome ∧
  (r.success = some true → r.text.isSome) ∧
  (r.success = some false → r.err.isSome)

instance (r : ResultDict) : Decidable (hasRequiredKeys r) := by
  unfold hasRequiredKeys
  infer_instance

/-! Flashcards JSON extraction (`ContentGenerator.generate_flashcards`,
src/backend/app/services/content_generator.py lines 67-78).  Python
string search, slicing and strip are embedded over `List Char` with
CPython semantics, including `find` returning `-1` when absent and a
negative slice end counting from the end of the string. -/

/-- Whether `needle` is a literal prefix of `hay`. -/
def isPre : List Char → List Char → Bool
  | [], _ => true
  | _ :: _, [] => false
  | a :: as, b :: bs => a == b && isPre as bs

/-- Index of the first occurrence of `needle` in `hay`, if any. -/
def findFrom (needle : List Char) : List Char → Option Nat
  | [] => if isPre needle [] then some 0 else none
  | c :: rest =>
    if isPre needle (c :: rest) then some 0
    else (findFrom needle rest).map (· + 1)

/-- Embedding of Python `hay.find(needle, start)`: the least occurrence
index that is at least `start`, and `-1` when there is none. -/
def pyFind (hay needle : List Char) (start : Nat) : Int :=
  match findFrom needle (hay.drop start) with
  | some j => ((start + j : Nat) : Int)
  | none => -1

/-- Embedding of the Python slice `s[a:b]` for `a ≥ 0` and a possibly
negative `b` (counted from the end, clamped at zero). -/
def pySlice (s : List Char) (a : Nat) (b : Int) : List Char :=
  let bn : Nat := if b < 0 then ((s.length : Int) + b).toNat else b.toNat
  (s.take bn).drop a

/-- Leading-whitespace removal. -/
def trimLeft (s : List Char) : List Char := s.dropWhile Char.isWhitespace

/-- Trailing-whitespace removal. -/
def trimRight (s : List Char) : List Char :=
  (s.reverse.dropWhile Char.isWhitespace).reverse

/-- Embedding of Python `s.strip()`. -/
def pyStrip (s : List Char) : List Char := trimRight (trimLeft s)

/-- The plain code-fence marker. -/
def fence : List Char := ['`', '`', '`']

/-- The tagged code-fence marker. -/
def fenceJson : List Char := ['`', '`', '`', 'j', 's', 'o', 'n']

/-- Embedding of the fence-extraction logic of `generate_flashcards`
(lines 69-78): if the response contains the tagged marker, take the
stripped text between the end of the first tagged marker and the next
plain marker (`find` yields `-1`, hence a drop-last slice, when no
closing marker exists); otherwise, the same with the plain marker;
otherwise the whole response. -/
def extractJsonText (response : List Char) : List Char :=
  if (findFrom fenceJson response).isSome then
    let jsonStart := (pyFind response fenceJson 0).toNat + 7
    let jsonEnd := pyFind response fence jsonStart
    pyStrip (pySlice response jsonStart jsonEnd)
  else if (findFrom fence response).isSome then
    let jsonStart := (pyFind response fence 0).toNat + 3
    let jsonEnd := pyFind response fence jsonStart
    pyStrip (pySlice response jsonStart jsonEnd)
  else response

/-- A payload wrapped in a fenced block with the `json` language tag. -/
def wrapJson (p : List Char) : List Char :=
  fenceJson ++ '\n' :: (p ++ '\n' :: fence)

/-- A payload wrapped in a fenced block without a language tag. -/
def wrapPlain (p : List Char) : List Char :=
  fence ++ '\n' :: (p ++ '\n' :: fence)

/-- First four characters of the tagged marker; used to rule the tagged
branch out for an untagged wrapped payload. -/
def fenceJ : List Char := ['`', '`', '`', 'j']

/-! Job lifecycle (src/backend/app/api/routes.py).  The in-memory `jobs`
dict is a function from job id to an optional job record; background-task
scheduling is recorded as a list of scheduled job ids. -/

/-- The `JobStatus` enumeration of src/backend/app/api/models.py. -/
inductive JobStatus
  | pending
  | processing
  | completed
  | failed
deriving DecidableEq, Repr

/-- One entry of the `jobs` dict (routes.py lines 90-97). -/
structure Job where
  status : JobStatus
  total_images : Nat
  processed_images : Nat
  results : Option (List TranscriptionItem)
  compiled_text : Option String
  message : String
deriving DecidableEq, Repr

/-- The in-memory job registry. -/
def JobStore := String → Option Job

/-- Dict assignment `jobs[jid] = j`. -/
def setJob (js : JobStore) (jid : String) (j : Job) : JobStore :=
  fun k => if k = jid then some j else js k

/-- A FastAPI `HTTPException` with status code and detail. -/
inductive ApiError
  | httpError (code : Nat) (detail : String)
deriving DecidableEq, Repr

/-- Outcome of the `/transcribe/jid` route: the HTTP response, the job
store after the call, and the background tasks scheduled by the call. -/
structure StartResult where
  response : Except ApiError String
  store : JobStore
  scheduled : List String

/-- Embedding of `start_transcription` (routes.py lines 109-135): 404
when the job id is unknown, 400 when the job is not `pending`, 404 when
the upload directory is gone; otherwise it schedules the background
processing task.  The handler itself never writes to `jobs`. -/
def start_transcription (js : JobStore) (jid : String) (dirExists : Bool) :
    StartResult :=
  match js jid with
  | none => ⟨.error (.httpError 404 "Job not found"), js, []⟩
  | some j =>
    if j.status ≠ JobStatus.pending then
      ⟨.error (.httpError 400 "Job already processed or processing"), js, []⟩
    else if dirExists = false then
      ⟨.error (.httpError 404 "Upload directory not found"), js, []⟩
    else ⟨.ok "Transcription started", js, [jid]⟩

/-! Upload and background pipeline (routes.py `upload_images` and
`process_transcription_job`, plus `TranscriptionService.process_images`
of src/backend/app/services/transcriber.py).  The upload directory is
the set of distinct uploaded file names (a later upload of the same name
overwrites the earlier file); the background run is embedded as the list
of job states after each dict assignment, in program order. -/

/-- `settings.ALLOWED_EXTENSIONS` (src/backend/app/core/config.py). -/
def ALLOWED_EXTENSIONS : List String :=
  [".jpg", ".jpeg", ".png", ".gif", ".webp", ".bmp"]

/-- `settings.MAX_UPLOAD_SIZE` (100 MB). -/
def MAX_UPLOAD_SIZE : Nat := 100 * 1024 * 1024

/-- One uploaded file: its client-reported name and byte size. -/
structure UploadedFile where
  filename : String
  size : Nat
deriving DecidableEq, Repr

/-- Distinct file names remaining after writing each upload to
`job_dir/filename` in order: a repeated name keeps only its last
occurrence. -/
def dedupNames : List String → List String
  | [] => []
  | n :: rest => if n ∈ rest then dedupNames rest else n :: dedupNames rest

/-- Insertion step of the lexicographic sort. -/
def insertSorted (s : String) : List String → List String
  | [] => [s]
  | t :: rest => if s < t then s :: t :: rest else t :: insertSorted s rest

/-- Embedding of Python `sorted` on file names. -/
def sortNames : List String → List String
  | [] => []
  | n :: rest => insertSorted n (sortNames rest)

/-- The job record created by `upload_images` (routes.py lines 90-97). -/
def initialJob (n : Nat) : Job :=
  ⟨JobStatus.pending, n, 0, none, none, "Files uploaded, ready to process"⟩

/-- Embedding of the `/upload` route (routes.py lines 43-107): reject an
empty list, any disallowed extension, or any oversize file; otherwise
store a fresh `pending` job under `jid` and leave the distinct uploaded
names in the job directory. -/
def upload_images (js : JobStore) (jid : String) (files : List UploadedFile) :
    Except ApiError (JobStore × List String) :=
  if files.isEmpty then .error (.httpError 400 "No files provided")
  else if ¬ files.all
      (fun f => decide (pathSuffixLower f.filename ∈ ALLOWED_EXTENSIONS)) then
    .error (.httpError 400 "Invalid file type")
  else if ¬ files.all (fun f => decide (f.size ≤ MAX_UPLOAD_SIZE)) then
    .error (.httpError 400 "File exceeds maximum size")
  else
    .ok (setJob js jid (initialJob files.length),
      dedupNames (files.map (fun f => f.filename)))

/-- The image files `process_images` selects: directory listing, sorted,
keeping allowed extensions (transcriber.py lines 41-45). -/
def imagePathsOf (dirFiles : List String) : List String :=
  (sortNames dirFiles).filter
    (fun f => decide (pathSuffixLower f ∈ ALLOWED_EXTENSIONS))

/-- Embedding of `TranscriptionService.process_images` (transcriber.py
lines 29-59): empty directory returns `([], "")` without error;
otherwise transcribe the batch and compile (the `save_output` file
writes are I/O with no effect on the returned value).  An `error`
value models a propagating Python exception. -/
def process_images (api : String → Except String String)
    (dirFiles : List String) (title ts : String) :
    Except String (List TranscriptionItem × String) :=
  if (imagePathsOf dirFiles).isEmpty then .ok ([], "")
  else
    let results := transcribe_batch api (imagePathsOf dirFiles)
    match compile_results (results.map itemDict) title ts with
    | .ok compiled => .ok (results, compiled)
    | .error e => .error e

/-- Embedding of `process_transcription_job` (routes.py lines 24-41) as
the sequence of job states after each assignment to `jobs[job_id]`, in
program order: set `processing`, set the message, then on success set
`completed`, the results, the compiled text, the processed count, and
the final message; on an exception set `failed` and the error message. -/
def process_transcription_job (api : String → Except String String)
    (job : Job) (dirFiles : List String) (title ts : String) : List Job :=
  let j1 := { job with status := JobStatus.processing }
  let j2 := { j1 with message := "Processing images..." }
  match process_images api dirFiles title ts with
  | .ok (results, compiled) =>
    let j3 := { j2 with status := JobStatus.completed }
    let j4 := { j3 with results := some results }
    let j5 := { j4 with compiled_text := some compiled }
    let j6 := { j5 with processed_images := results.length }
    let j7 := { j6 with message := "Transcription completed successfully" }
    [j1, j2, j3, j4, j5, j6, j7]
  | .error e =>
    let j3 := { j2 with status := JobStatus.failed }
    let j4 := { j3 with message := "Error: " ++ e }
    [j1, j2, j3, j4]

/-- The compiled text a successful run stores: empty for an empty
directory, otherwise the joined document. -/
def compiledTextOf (api : String → Except String String)
    (dirFiles : List String) (title ts : String) : String :=
  if (imagePathsOf dirFiles).isEmpty then "" else
    String.intercalate "\n"
      (headerLines title ts (transcribe_batch api (imagePathsOf dirFiles)) ++
        sectionsFrom 1 (transcribe_batch api (imagePathsOf dirFiles)))

/-! Content generation dispatcher
(src/backend/app/services/content_generator.py).  The model call is the
oracle `api` (prompt to response text); `json.loads` and `json.dump` and
the flashcards text rendering are the oracles `parse`, `dump` and
`render`.  File writes are recorded as `(path, content)` events; a
raised exception is an `error` value.  The long English prompt bodies
are abbreviated to short tags: every theorem below quantifies over
`api`, so no property can depend on the prompt wording. -/

/-- The `ContentType` enumeration of models.py. -/
inductive ContentType
  | flashcards
  | infographics
  | video_script
  | podcast
deriving DecidableEq, Repr

/-- Embedding of the Python character slice `s[:n]`. -/
def pyTakeStr (n : Nat) (s : String) : String :=
  String.mk (s.toList.take n)

/-- The flashcards prompt with its 8000-character transcription prefix
(content_generator.py lines 34-56, wording abbreviated). -/
def flashcardsPrompt (text : String) : String :=
  "flashcards prompt: " ++ pyTakeStr 8000 text

/-- The infographic prompt (lines 115-129, wording abbreviated). -/
def infographicPrompt (text : String) : String :=
  "infographic prompt: " ++ pyTakeStr 8000 text

/-- The video-script prompt (lines 156-178, wording abbreviated). -/
def videoScriptPrompt (text : String) : String :=
  "video script prompt: " ++ pyTakeStr 8000 text

/-- The podcast prompt (lines 205-228, wording abbreviated). -/
def podcastPrompt (text : String) : String :=
  "podcast prompt: " ++ pyTakeStr 8000 text

/-- The prompt used for each content type. -/
def promptOf : ContentType → String → String
  | ContentType.flashcards, text => flashcardsPrompt text
  | ContentType.infographics, text => infographicPrompt text
  | ContentType.video_script, text => videoScriptPrompt text
  | ContentType.podcast, text => podcastPrompt text

/-- Embedding of `pathlib.Path(p).with_suffix(".txt")`. -/
def withSuffixTxt (p : String) : String :=
  let cs := p.toList
  String.mk (cs.take (cs.length - (pathSuffix p).toList.length)) ++ ".txt"

/-- The output file of each content type inside the job output
directory (content_generator.py lines 260-271). -/
def typePath (outDir : String) : ContentType → String
  | ContentType.flashcards => outDir ++ "/flashcards.json"
  | ContentType.infographics => outDir ++ "/infographic.md"
  | ContentType.video_script => outDir ++ "/video_script.txt"
  | ContentType.podcast => outDir ++ "/podcast_script.txt"

/-- Embedding of `ContentGenerator.generate_flashcards` (lines 23-102):
call the model, extract the fenced JSON, parse it; on success write the
parsed JSON and a text rendering and return the output path; on parse
failure write the raw response to the `.txt` fallback and raise.
Returns the file writes performed and the outcome. -/
def generate_flashcards (api : String → String)
    (parse : String → Except String α) (dump render : α → String)
    (transcription_text outputPath : String) :
    List (String × String) × Except String String :=
  let response := api (flashcardsPrompt transcription_text)
  let jsonText := String.mk (extractJsonText response.toList)
  match parse jsonText with
  | .ok data =>
    ([(outputPath, dump data), (withSuffixTxt outputPath, render data)],
      .ok outputPath)
  | .error e =>
    ([(withSuffixTxt outputPath, response)],
      .error ("Failed to parse flashcards JSON: " ++ e))

/-- Embedding of the three narrative generators (lines 104-242): call
the model with the type prompt and write the response verbatim; they
cannot fail. -/
def generate_narrative (api : String → String) (prompt : String)
    (outputPath : String) : List (String × String) × String :=
  ([(outputPath, api prompt)], outputPath)

/-- Loop body of `ContentGenerator.generate_content` (lines 244-273)
over the remaining requested types, carrying the file writes performed
so far and the `generated_files` dict as an association list.  A raised
exception stops the loop and discards the dict. -/
def generate_content_go (api : String → String)
    (parse : String → Except String α) (dump render : α → String)
    (text outDir : String) :
    List ContentType → List (String × String) → List (String × String) →
    List (String × String) × Except String (List (String × String))
  | [], writes, acc => (writes, .ok acc)
  | ContentType.flashcards :: rest, writes, acc =>
    match generate_flashcards api parse dump render text
        (outDir ++ "/flashcards.json") with
    | (w, .ok p) =>
      generate_content_go api parse dump render text outDir rest
        (writes ++ w) (acc ++ [("flashcards", p)])
    | (w, .error e) => (writes ++ w, .error e)
  | ContentType.infographics :: rest, writes, acc =>
    let r := generate_narrative api (infographicPrompt text)
      (outDir ++ "/infographic.md")
    generate_content_go api parse dump render text outDir rest
      (writes ++ r.1) (acc ++ [("infographics", r.2)])
  | ContentType.video_script :: rest, writes, acc =>
    let r := generate_narrative api (videoScriptPrompt text)
      (outDir ++ "/video_script.txt")
    generate_content_go api parse dump render text outDir rest
      (writes ++ r.1) (acc ++ [("video_script", r.2)])
  | ContentType.podcast :: rest, writes, acc =>
    let r := generate_narrative api (podcastPrompt text)
      (outDir ++ "/podcast_script.txt")
    generate_content_go api parse dump render text outDir rest
      (writes ++ r.1) (acc ++ [("podcast", r.2)])

/-- Embedding of `ContentGenerator.generate_content`: run the loop with
empty write log and empty dict. -/
def generate_content (api : String → String)
    (parse : String → Except String α) (dump render : α → String)
    (text : String) (types : List ContentType) (outDir : String) :
    List (String × String) × Except String (List (String × String)) :=
  generate_content_go api parse dump render text outDir types [] []

/-- C3: the batch operation returns exactly N items, in input order; an
image whose transcription fails yields an item with `success = false`,
empty text and the error description; the failure does not propagate and
does not disturb any other item (each output item is a function of its
own input path alone). -/
theorem transcribe_batch_per_item_isolation
    (api : String → Except String String) (imagePaths : List String) :
    (transcribe_batch api imagePaths).length = imagePaths.length ∧
    (∀ i : Nat, (transcribe_batch api imagePaths)[i]? =
      (imagePaths[i]?).map (transcribe_image api)) ∧
    (∀ p e, api p = .error e →
      transcribe_image api p = ⟨p, "", false, some e⟩) ∧
    (∀ p t, api p = .ok t →
      transcribe_image api p = ⟨p, t, true, none⟩) := by
  refine ⟨List.length_map _ _, fun i => List.getElem?_map .., ?_, ?_⟩
  · intro p e h
    simp [transcribe_image, h]
  · intro p t h
    simp [transcribe_image, h]

/-- Witness for C3: a concrete three-image batch whose middle image fails
still yields three items in order, the middle one marked failed. -/
theorem transcribe_batch_per_item_isolation_witness :
    (transcribe_batch
        (fun p => if p = "b.jpg" then .error "boom" else .ok ("T-" ++ p))
        ["a.jpg", "b.jpg", "c.jpg"]).length = 3 ∧
    transcribe_batch
        (fun p => if p = "b.jpg" then .error "boom" else .ok ("T-" ++ p))
        ["a.jpg", "b.jpg", "c.jpg"] =
      [⟨"a.jpg", "T-a.jpg", true, none⟩,
       ⟨"b.jpg", "", false, some "boom"⟩,
       ⟨"c.jpg", "T-c.jpg", true, none⟩] := by
  refine ⟨(transcribe_batch_per_item_isolation
    (fun p => if p = "b.jpg" then .error "boom" else .ok ("T-" ++ p))
    ["a.jpg", "b.jpg", "c.jpg"]).1, ?_⟩
  decide

/-- C6: when the first encode exceeds the budget, `compress_image`
performs exactly one re-encode and at most one resize, the resulting
longer dimension never exceeds 2400, both dimensions are scaled by one
common ratio (aspect preserved up to int truncation), and the bytes of
the second encode are returned even if still over budget. -/
theorem compress_image_bounded_two_pass
    (enc : Nat → Nat → Nat) (w h maxSizeBytes : Nat)
    (hw : 1 ≤ w) (hh : 1 ≤ h) (hover : maxSizeBytes < enc w h) :
    (compress_image enc w h maxSizeBytes).encodes = 2 ∧
    (compress_image enc w h maxSizeBytes).resizes ≤ 1 ∧
    max (compress_image enc w h maxSizeBytes).finalW
      (compress_image enc w h maxSizeBytes).finalH ≤ 2400 ∧
    (∃ q : ℚ, 0 < q ∧ q ≤ 1 ∧
      (compress_image enc w h maxSizeBytes).finalW = Int.toNat ⌊(w : ℚ) * q⌋ ∧
      (compress_image enc w h maxSizeBytes).finalH = Int.toNat ⌊(h : ℚ) * q⌋) ∧
    (compress_image enc w h maxSizeBytes).size =
      enc (compress_image enc w h maxSizeBytes).finalW
        (compress_image enc w h maxSizeBytes).finalH := by
  have hwQ : (0 : ℚ) < (w : ℚ) := by exact_mod_cast hw
  have hhQ : (0 : ℚ) < (h : ℚ) := by exact_mod_cast hh
  unfold compress_image
  simp only [if_pos hover]
  by_cases hr : min (2400 / (w : ℚ)) (2400 / (h : ℚ)) < 1
  · simp only [if_pos hr]
    set q : ℚ := min (2400 / (w : ℚ)) (2400 / (h : ℚ)) with hq
    have hq0 : 0 < q := lt_min (by positivity) (by positivity)
    have hwle : (w : ℚ) * q ≤ 2400 := by
      have : q ≤ 2400 / (w : ℚ) := min_le_left _ _
      calc (w : ℚ) * q ≤ (w : ℚ) * (2400 / (w : ℚ)) := by
            exact mul_le_mul_of_nonneg_left this (le_of_lt hwQ)
        _ = 2400 := by field_simp
    have hhle : (h : ℚ) * q ≤ 2400 := by
      have : q ≤ 2400 / (h : ℚ) := min_le_right _ _
      calc (h : ℚ) * q ≤ (h : ℚ) * (2400 / (h : ℚ)) := by
            exact mul_le_mul_of_nonneg_left this (le_of_lt hhQ)
        _ = 2400 := by field_simp
    have hwfl : Int.toNat ⌊(w : ℚ) * q⌋ ≤ 2400 := by
      have h1 : ⌊(w : ℚ) * q⌋ ≤ (2400 : ℤ) := by
        have := Int.floor_le_floor hwle
        simpa using this
      omega
    have hhfl : Int.toNat ⌊(h : ℚ) * q⌋ ≤ 2400 := by
      have h1 : ⌊(h : ℚ) * q⌋ ≤ (2400 : ℤ) := by
        have := Int.floor_le_floor hhle
        simpa using this
      omega
    exact ⟨by trivial, by norm_num, by simpa using max_le hwfl hhfl,
      ⟨q, hq0, le_of_lt hr, by trivial, by trivial⟩, by trivial⟩
  · simp only [if_neg hr]
    push_neg at hr
    have hw24 : (w : ℚ) ≤ 2400 := by
      have h1 : (1 : ℚ) ≤ 2400 / (w : ℚ) := le_trans hr (min_le_left _ _)
      rw [le_div_iff₀ hwQ] at h1
      linarith
    have hh24 : (h : ℚ) ≤ 2400 := by
      have h1 : (1 : ℚ) ≤ 2400 / (h : ℚ) := le_trans hr (min_le_right _ _)
      rw [le_div_iff₀ hhQ] at h1
      linarith
    have hwN : w ≤ 2400 := by exact_mod_cast hw24
    have hhN : h ≤ 2400 := by exact_mod_cast hh24
    exact ⟨by trivial, by norm_num, by simpa using max_le hwN hhN,
      ⟨1, by norm_num, le_refl 1, by simp, by simp⟩, by trivial⟩

/-- Witness for C6: a 4800x2400 image whose first encode (size = area)
exceeds a 100-byte budget is resized once and re-encoded once. -/
theorem compress_image_bounded_two_pass_witness :
    1 ≤ 4800 ∧ 1 ≤ 2400 ∧ 100 < (fun a b => a * b) 4800 2400 ∧
    (compress_image (fun a b => a * b) 4800 2400 100).encodes = 2 ∧
    max (compress_image (fun a b => a * b) 4800 2400 100).finalW
      (compress_image (fun a b => a * b) 4800 2400 100).finalH ≤ 2400 := by
  have h := compress_image_bounded_two_pass (fun a b => a * b) 4800 2400 100
    (by norm_num) (by norm_num) (by norm_num)
  exact ⟨by norm_num, by norm_num, by norm_num, h.1, h.2.2.1⟩

/-- C10: the size budget (compression path) applies exactly to
jpg/jpeg/png/webp; a `.gif` or `.bmp` file is returned with its raw
bytes untouched and a media type derived from the extension. -/
theorem encode_image_gif_bmp_passthrough
    (compress : ImgFile → List Nat) (f : ImgFile)
    (h : pathSuffixLower f.name = ".gif" ∨ pathSuffixLower f.name = ".bmp") :
    encode_image compress f =
      (f.contents, "image/" ++ pyDropStr 1 (pathSuffixLower f.name)) ∧
    (∀ g : ImgFile, pathSuffixLower g.name ∈ COMPRESS_EXTS →
      encode_image compress g = (compress g, "image/jpeg")) := by
  constructor
  · rcases h with h | h <;> simp [encode_image, COMPRESS_EXTS, h]
  · intro g hg
    simp [encode_image, hg]

/-- Witness for C10: a `.gif` file keeps its bytes and gets media type
`image/gif`; a `.png` file takes the compression path. -/
theorem encode_image_gif_bmp_passthrough_witness :
    (pathSuffixLower "anim.GIF" = ".gif" ∨
      pathSuffixLower "anim.GIF" = ".bmp") ∧
    encode_image (fun _ => [9, 9]) ⟨"anim.GIF", [1, 2, 3]⟩ =
      ([1, 2, 3], "image/gif") ∧
    encode_image (fun _ => [9, 9]) ⟨"photo.png", [4, 5]⟩ =
      ([9, 9], "image/jpeg") := by
  have h := encode_image_gif_bmp_passthrough (fun _ => [9, 9])
    ⟨"anim.GIF", [1, 2, 3]⟩ (Or.inl (by decide))
  refine ⟨Or.inl (by decide), ?_, h.2 ⟨"photo.png", [4, 5]⟩ (by decide)⟩
  rw [h.1]
  decide

/-- Reduction of the `Except` monad bind on a success value. -/
theorem ok_bind (a : α) (f : α → Except ε β) :
    (Except.ok a : Except ε α) >>= f = f a := rfl

/-- Reduction of `Except.map` on a success value. -/
theorem map_ok_val (f : α → β) (a : α) :
    Except.map f (Except.ok a : Except ε α) = .ok (f a) := rfl

theorem renderItem_itemDict (i : Nat) (it : TranscriptionItem) :
    renderItem i (itemDict it) = .ok (sectionLines i it) := by
  cases it with
  | mk fn tx s er =>
    cases s <;> simp [renderItem, itemDict, getKey, sectionLines, ok_bind]

theorem renderAll_map_itemDict (items : List TranscriptionItem) (i : Nat) :
    renderAll i (items.map itemDict) = .ok (sectionsFrom i items) := by
  induction items generalizing i with
  | nil => rfl
  | cons it rest ih =>
    simp [renderAll, sectionsFrom, renderItem_itemDict, ih, ok_bind]

theorem countSuccesses_map_itemDict (items : List TranscriptionItem) :
    countSuccesses (items.map itemDict) =
      .ok (items.filter (·.success)).length := by
  induction items with
  | nil => rfl
  | cons it rest ih =>
    cases h : it.success <;>
      simp [countSuccesses, itemDict, getKey, ih, ok_bind, List.filter, h]

theorem compileLines_itemDict (items : List TranscriptionItem)
    (title t : String) :
    compileLines (items.map itemDict) title t =
      .ok (headerLines title t items ++ sectionsFrom 1 items) := by
  simp [compileLines, countSuccesses_map_itemDict, renderAll_map_itemDict,
    headerLines, ok_bind]

/-- C8: on the dicts produced by the engine, the compiler output is the
header (title, timestamp, total count, success count) followed by one
section per item in input order, successes rendered as heading plus
verbatim text and failures as a failed heading plus the error; and with
the same items the line lists produced at two timestamps agree
everywhere except the timestamp line (index 1). -/
theorem compile_results_structure_and_determinism
    (items : List TranscriptionItem) (title t1 t2 : String) :
    (∀ t : String, compileLines (items.map itemDict) title t =
      .ok (headerLines title t items ++ sectionsFrom 1 items)) ∧
    (∀ t : String, compile_results (items.map itemDict) title t =
      .ok (String.intercalate "\n"
        (headerLines title t items ++ sectionsFrom 1 items))) ∧
    (∃ L1 L2 : List String,
      compileLines (items.map itemDict) title t1 = .ok L1 ∧
      compileLines (items.map itemDict) title t2 = .ok L2 ∧
      L1.length = L2.length ∧
      L1.take 1 = L2.take 1 ∧
      L1.drop 2 = L2.drop 2) := by
  have hmain : ∀ t : String, compileLines (items.map itemDict) title t =
      .ok (headerLines title t items ++ sectionsFrom 1 items) :=
    fun t => compileLines_itemDict items title t
  refine ⟨hmain, ?_, ?_⟩
  · intro t
    simp [compile_results, hmain t, map_ok_val]
  · refine ⟨_, _, hmain t1, hmain t2, ?_, ?_, ?_⟩
    · simp [headerLines]
    · simp [headerLines]
    · simp [headerLines]

/-- C9 counterexample: an item dict with no keys at all makes
`compile_results` fail with a `KeyError` instead of rendering missing
fields as empty. -/
theorem compile_results_missing_key_raises :
    compile_results [⟨none, none, none, none⟩] "Transcribed Content" "ts" =
      .error "KeyError: success" := by
  rfl

theorem countSuccesses_ok_of_keys (results : List ResultDict)
    (h : ∀ r ∈ results, r.success.isSome) :
    ∃ n, countSuccesses results = .ok n := by
  induction results with
  | nil => exact ⟨0, rfl⟩
  | cons r rest ih =>
    obtain ⟨b, hb⟩ := Option.isSome_iff_exists.mp (h r (by simp))
    obtain ⟨n, hn⟩ := ih (fun x hx => h x (by simp [hx]))
    exact ⟨if b then n + 1 else n, by simp [countSuccesses, getKey, hb, hn, ok_bind]⟩

theorem renderAll_ok_of_keys (results : List ResultDict) (i : Nat)
    (h : ∀ r ∈ results, hasRequiredKeys r) :
    ∃ ls, renderAll i results = .ok ls := by
  induction results generalizing i with
  | nil => exact ⟨[], rfl⟩
  | cons r rest ih =>
    obtain ⟨hs, hf, ht, he⟩ := h r (by simp)
    obtain ⟨b, hb⟩ := Option.isSome_iff_exists.mp hs
    obtain ⟨fn, hfn⟩ := Option.isSome_iff_exists.mp hf
    obtain ⟨tail, htail⟩ := ih (i + 1) (fun x hx => h x (by simp [hx]))
    cases b with
    | true =>
      obtain ⟨tx, htx⟩ := Option.isSome_iff_exists.mp (ht (by rw [hb]))
      refine ⟨("## Image " ++ toString i ++ ": " ++ fn) ::
        "" :: tx :: "" :: "---" :: "" :: tail, ?_⟩
      simp [renderAll, renderItem, getKey, hb, hfn, htx, htail, ok_bind]
    | false =>
      obtain ⟨er, her⟩ := Option.isSome_iff_exists.mp (he (by rw [hb]))
      refine ⟨("## Image " ++ toString i ++ ": " ++ fn ++ " [FAILED]") ::
        ("Error: " ++ pyStrOfOptStr er) :: "" :: "---" :: "" :: tail, ?_⟩
      simp [renderAll, renderItem, getKey, hb, hfn, her, htail, ok_bind]

/-- C9 amended: `compile_results` raises `KeyError` on a missing field;
it is total exactly over item lists in which every item carries the
fields the function reads (`success` and `filename` always, `text` for
successes, `error` for failures). -/
theorem compile_results_total_on_keyed
    (results : List ResultDict) (title timestamp : String)
    (h : ∀ r ∈ results, hasRequiredKeys r) :
    ∃ s, compile_results results title timestamp = .ok s := by
  obtain ⟨n, hn⟩ := countSuccesses_ok_of_keys results
    (fun r hr => (h r hr).1)
  obtain ⟨ls, hls⟩ := renderAll_ok_of_keys results 1 h
  refine ⟨String.intercalate "\n"
    (["# " ++ title,
      "Transcribed on: " ++ timestamp,
      "Total images processed: " ++ toString results.length,
      "Successful transcriptions: " ++ toString n,
      "", "---", ""] ++ ls), ?_⟩
  simp [compile_results, compileLines, hn, hls, ok_bind, map_ok_val]

/-- Witness for C9 amended: a concrete two-item list (the failed item
has no `text` key, which is fine since it is never read) compiles
successfully. -/
theorem compile_results_total_on_keyed_witness :
    (∀ r ∈ [(⟨some "a.jpg", some "hello", some true, some none⟩ : ResultDict),
            ⟨some "b.jpg", none, some false, some (some "boom")⟩],
        hasRequiredKeys r) ∧
    ∃ s, compile_results
        [⟨some "a.jpg", some "hello", some true, some none⟩,
         ⟨some "b.jpg", none, some false, some (some "boom")⟩]
        "Transcribed Content" "2024-01-01 10:00" = .ok s := by
  refine ⟨by decide, compile_results_total_on_keyed _ _ _ (by decide)⟩

theorem isPre_self_append (l t : List Char) : isPre l (l ++ t) = true := by
  induction l with
  | nil => rfl
  | cons a as ih => simp [isPre, ih]

theorem findFrom_of_isPre (needle l : List Char) (h : isPre needle l = true) :
    findFrom needle l = some 0 := by
  cases l with
  | nil => simp [findFrom, h]
  | cons c rest => simp [findFrom, h]

theorem isPre_of_isPre_append (u v s : List Char)
    (h : isPre (u ++ v) s = true) : isPre u s = true := by
  induction u generalizing s with
  | nil => rfl
  | cons a as ih =>
    cases s with
    | nil => simp [isPre] at h
    | cons b bs =>
      simp only [List.cons_append, isPre, Bool.and_eq_true] at h ⊢
      exact ⟨h.1, ih bs h.2⟩

theorem findFrom_none_of_sub (u v l : List Char)
    (h : findFrom u l = none) : findFrom (u ++ v) l = none := by
  induction l with
  | nil =>
    cases u with
    | nil => simp [findFrom, isPre] at h
    | cons a as => simp [findFrom, isPre]
  | cons c rest ih =>
    simp only [findFrom] at h ⊢
    by_cases hp : isPre u (c :: rest) = true
    · simp [hp] at h
    · have hp2 : isPre (u ++ v) (c :: rest) = false := by
        cases h2 : isPre (u ++ v) (c :: rest) with
        | false => rfl
        | true => exact absurd (isPre_of_isPre_append u v _ h2) hp
      have hrest : findFrom u rest = none := by
        cases hfr : findFrom u rest with
        | none => rfl
        | some j => simp [eq_false_of_ne_true hp, hfr] at h
      simp [hp2, ih hrest]

theorem isPre_barrier (needle l t : List Char) (hnl : '\n' ∉ needle)
    (h : isPre needle l = false) : isPre needle (l ++ '\n' :: t) = false := by
  induction needle generalizing l with
  | nil => simp [isPre] at h
  | cons a ns ih =>
    cases l with
    | nil =>
      have ha : a ≠ '\n' := fun he => hnl (he ▸ List.mem_cons_self a ns)
      simp [isPre, ha]
    | cons b ls =>
      simp only [isPre] at h
      cases hab : (a == b) with
      | false => simp [isPre, hab]
      | true =>
        have h2 : isPre ns ls = false := by
          cases h3 : isPre ns ls with
          | false => rfl
          | true => rw [hab, h3] at h; simp at h
        have := ih ls (fun hm => hnl (List.mem_cons_of_mem a hm)) h2
        simp [isPre, hab, this]

theorem findFrom_barrier (needle l t : List Char) (hnl : '\n' ∉ needle)
    (hne : needle ≠ []) (h : findFrom needle l = none) :
    findFrom needle (l ++ '\n' :: t) =
      (findFrom needle t).map (fun j => j + (l.length + 1)) := by
  induction l with
  | nil =>
    obtain ⟨a, ns, rfl⟩ : ∃ a ns, needle = a :: ns := by
      cases needle with
      | nil => exact absurd rfl hne
      | cons a ns => exact ⟨a, ns, rfl⟩
    have ha : a ≠ '\n' := fun he => hnl (he ▸ List.mem_cons_self a ns)
    simp only [List.nil_append, findFrom, isPre]
    have : (a == '\n') = false := by simp [ha]
    simp [this]
  | cons c ls ih =>
    simp only [findFrom] at h
    by_cases hp : isPre needle (c :: ls) = true
    · simp [hp] at h
    · have hp' : isPre needle (c :: ls) = false := eq_false_of_ne_true hp
      have hls : findFrom needle ls = none := by
        cases hfr : findFrom needle ls with
        | none => rfl
        | some j => simp [hp', hfr] at h
      have hb : isPre needle ((c :: ls) ++ '\n' :: t) = false :=
        isPre_barrier needle (c :: ls) t hnl hp'
      have hstep : findFrom needle ((c :: ls) ++ '\n' :: t) =
          (findFrom needle (ls ++ '\n' :: t)).map (· + 1) := by
        rw [List.cons_append] at hb ⊢
        simp only [findFrom, hb, Bool.false_eq_true, if_false]
      rw [hstep, ih hls]
      cases findFrom needle t with
      | none => rfl
      | some j =>
        simp only [Option.map_some', Option.some.injEq, List.length_cons]
        omega

theorem pyStrip_cons_ws (c : Char) (l : List Char)
    (hc : Char.isWhitespace c = true) : pyStrip (c :: l) = pyStrip l := by
  simp [pyStrip, trimLeft, List.dropWhile_cons, hc]

theorem trimRight_append_ws (c : Char) (l : List Char)
    (hc : Char.isWhitespace c = true) : trimRight (l ++ [c]) = trimRight l := by
  simp [trimRight, List.reverse_append, List.dropWhile_cons, hc]

theorem pyStrip_append_ws (c : Char) (l : List Char)
    (hc : Char.isWhitespace c = true) : pyStrip (l ++ [c]) = pyStrip l := by
  induction l with
  | nil => simp [pyStrip, trimLeft, trimRight, List.dropWhile_cons, hc]
  | cons a ls ih =>
    by_cases ha : Char.isWhitespace a = true
    · rw [List.cons_append, pyStrip_cons_ws a _ ha, ih, pyStrip_cons_ws a _ ha]
    · have ha' : Char.isWhitespace a = false := eq_false_of_ne_true ha
      simp only [pyStrip, trimLeft, List.cons_append, List.dropWhile_cons, ha',
        Bool.false_eq_true, if_false]
      exact trimRight_append_ws c (a :: ls) hc

theorem nl_not_mem_fence : '\n' ∉ fence := by decide

/-- Extraction result for a `json`-tagged wrapped payload containing no
fence marker. -/
theorem extractJsonText_wrapJson (p : List Char)
    (hfree : findFrom fence p = none) :
    extractJsonText (wrapJson p) = pyStrip p := by
  have hfound : findFrom fenceJson (wrapJson p) = some 0 :=
    findFrom_of_isPre _ _ (isPre_self_append fenceJson _)
  have hinner : findFrom fence ('\n' :: (p ++ '\n' :: fence)) =
      some (p.length + 2) := by
    have h1 : findFrom fence (p ++ '\n' :: fence) =
        (findFrom fence fence).map (fun j => j + (p.length + 1)) :=
      findFrom_barrier fence p fence nl_not_mem_fence (by decide) hfree
    have h2 : findFrom fence fence = some 0 := by decide
    rw [h2] at h1
    have h3 : isPre fence ('\n' :: (p ++ '\n' :: fence)) = false := rfl
    simp only [findFrom, h3, Bool.false_eq_true, if_false, h1]
    simp only [Option.map_some', Option.some.injEq]
    omega
  have hdrop : (wrapJson p).drop 7 = '\n' :: (p ++ '\n' :: fence) := by
    have h7 : (7 : Nat) = fenceJson.length := by decide
    rw [h7, wrapJson, List.drop_left]
  have hfind2 : pyFind (wrapJson p) fence 7 = ((p.length + 9 : Nat) : Int) := by
    simp only [pyFind, hdrop, hinner]
    congr 1
    omega
  have hfind1 : pyFind (wrapJson p) fenceJson 0 = ((0 : Nat) : Int) := by
    simp [pyFind, hfound]
  have hslice : pySlice (wrapJson p) 7 ((p.length + 9 : Nat) : Int) =
      '\n' :: (p ++ ['\n']) := by
    have hrearr : wrapJson p = (fenceJson ++ '\n' :: (p ++ ['\n'])) ++ fence := by
      simp [wrapJson]
    have hlen : (fenceJson ++ '\n' :: (p ++ ['\n'])).length = p.length + 9 := by
      simp [fenceJson]
    simp only [pySlice]
    have hb : ¬ ((p.length + 9 : Nat) : Int) < 0 := by omega
    simp only [if_neg hb, Int.toNat_natCast]
    rw [hrearr, ← hlen, List.take_left]
    have h7 : (7 : Nat) = fenceJson.length := by decide
    rw [h7, List.drop_left]
  have hps : pyStrip ('\n' :: (p ++ ['\n'])) = pyStrip p := by
    rw [pyStrip_cons_ws '\n' _ (by decide)]
    exact pyStrip_append_ws '\n' p (by decide)
  rw [extractJsonText]
  simp only [hfound, Option.isSome_some, if_true, hfind1]
  simp only [Int.toNat_natCast, zero_add]
  rw [hfind2, hslice, hps]

theorem extractJsonText_wrapPlain (p : List Char)
    (hfree : findFrom fence p = none) :
    extractJsonText (wrapPlain p) = pyStrip p := by
  have hfreeJ : findFrom fenceJ p = none := by
    have : fenceJ = fence ++ ['j'] := by decide
    rw [this]
    exact findFrom_none_of_sub fence ['j'] p hfree
  have htail : findFrom fenceJ (p ++ '\n' :: fence) = none := by
    have h1 : findFrom fenceJ (p ++ '\n' :: fence) =
        (findFrom fenceJ fence).map (fun j => j + (p.length + 1)) :=
      findFrom_barrier fenceJ p fence (by decide) (by decide) hfreeJ
    have hff : findFrom fenceJ fence = none := by decide
    rw [hff] at h1
    simpa using h1
  have hnoJ : findFrom fenceJ (wrapPlain p) = none := by
    have e1 : wrapPlain p = '`' :: '`' :: '`' :: '\n' :: (p ++ '\n' :: fence) := by
      simp [wrapPlain, fence]
    have i0 : isPre fenceJ
      ('`' :: '`' :: '`' :: '\n' :: (p ++ '\n' :: fence)) = false := rfl
    have i1 : isPre fenceJ
      ('`' :: '`' :: '\n' :: (p ++ '\n' :: fence)) = false := rfl
    have i2 : isPre fenceJ ('`' :: '\n' :: (p ++ '\n' :: fence)) = false := rfl
    have i3 : isPre fenceJ ('\n' :: (p ++ '\n' :: fence)) = false := rfl
    rw [e1]
    simp only [findFrom, i0, i1, i2, i3, Bool.false_eq_true, if_false, htail]
    rfl
  have hnoFenceJson : findFrom fenceJson (wrapPlain p) = none := by
    have hsplit : fenceJson = fenceJ ++ ['s', 'o', 'n'] := by decide
    rw [hsplit]
    exact findFrom_none_of_sub fenceJ ['s', 'o', 'n'] _ hnoJ
  have hfound : findFrom fence (wrapPlain p) = some 0 :=
    findFrom_of_isPre _ _ (isPre_self_append fence _)
  have hinner : findFrom fence ('\n' :: (p ++ '\n' :: fence)) =
      some (p.length + 2) := by
    have h1 : findFrom fence (p ++ '\n' :: fence) =
        (findFrom fence fence).map (fun j => j + (p.length + 1)) :=
      findFrom_barrier fence p fence nl_not_mem_fence (by decide) hfree
    have h2 : findFrom fence fence = some 0 := by decide
    rw [h2] at h1
    have h3 : isPre fence ('\n' :: (p ++ '\n' :: fence)) = false := rfl
    simp only [findFrom, h3, Bool.false_eq_true, if_false, h1]
    simp only [Option.map_some', Option.some.injEq]
    omega
  have hdrop : (wrapPlain p).drop 3 = '\n' :: (p ++ '\n' :: fence) := by
    have h3 : (3 : Nat) = fence.length := by decide
    rw [h3, wrapPlain, List.drop_left]
  have hfind2 : pyFind (wrapPlain p) fence 3 = ((p.length + 5 : Nat) : Int) := by
    simp only [pyFind, hdrop, hinner]
    congr 1
    omega
  have hfind1 : pyFind (wrapPlain p) fence 0 = ((0 : Nat) : Int) := by
    simp [pyFind, hfound]
  have hslice : pySlice (wrapPlain p) 3 ((p.length + 5 : Nat) : Int) =
      '\n' :: (p ++ ['\n']) := by
    have hrearr : wrapPlain p = (fence ++ '\n' :: (p ++ ['\n'])) ++ fence := by
      simp [wrapPlain]
    have hlen : (fence ++ '\n' :: (p ++ ['\n'])).length = p.length + 5 := by
      simp [fence]
    simp only [pySlice]
    have hb : ¬ ((p.length + 5 : Nat) : Int) < 0 := by omega
    simp only [if_neg hb, Int.toNat_natCast]
    rw [hrearr, ← hlen, List.take_left]
    have h3 : (3 : Nat) = fence.length := by decide
    rw [h3, List.drop_left]
  have hps : pyStrip ('\n' :: (p ++ ['\n'])) = pyStrip p := by
    rw [pyStrip_cons_ws '\n' _ (by decide)]
    exact pyStrip_append_ws '\n' p (by decide)
  rw [extractJsonText]
  simp only [hnoFenceJson, Option.isSome_none, Bool.false_eq_true, if_false]
  simp only [hfound, Option.isSome_some, if_true, hfind1]
  simp only [Int.toNat_natCast, zero_add]
  rw [hfind2, hslice, hps]

/-- Extraction result for a bare fence-free payload: returned as is. -/
theorem extractJsonText_bare (p : List Char)
    (hfree : findFrom fence p = none) : extractJsonText p = p := by
  have hnoFenceJson : findFrom fenceJson p = none := by
    have : fenceJson = fence ++ ['j', 's', 'o', 'n'] := by decide
    rw [this]
    exact findFrom_none_of_sub fence ['j', 's', 'o', 'n'] p hfree
  rw [extractJsonText]
  simp [hnoFenceJson, hfree]

/-- C7 amended: for a payload that contains no fence marker and has no
leading or trailing whitespace, the extractor returns the identical
payload whether it arrives bare, wrapped in a tagged fenced block, or
wrapped in an untagged fenced block. -/
theorem extractJsonText_wrap_agnostic (p : List Char)
    (hfree : findFrom fence p = none) (htrim : pyStrip p = p) :
    extractJsonText (wrapJson p) = p ∧
    extractJsonText (wrapPlain p) = p ∧
    extractJsonText p = p := by
  exact ⟨by rw [extractJsonText_wrapJson p hfree, htrim],
    by rw [extractJsonText_wrapPlain p hfree, htrim],
    extractJsonText_bare p hfree⟩

/-- Witness for C7 amended: the concrete payload `[1, 2]` parses the
same in all three shapes. -/
theorem extractJsonText_wrap_agnostic_witness :
    findFrom fence ['[', '1', ',', ' ', '2', ']'] = none ∧
    pyStrip ['[', '1', ',', ' ', '2', ']'] = ['[', '1', ',', ' ', '2', ']'] ∧
    (extractJsonText (wrapJson ['[', '1', ',', ' ', '2', ']']) =
        ['[', '1', ',', ' ', '2', ']'] ∧
      extractJsonText (wrapPlain ['[', '1', ',', ' ', '2', ']']) =
        ['[', '1', ',', ' ', '2', ']'] ∧
      extractJsonText ['[', '1', ',', ' ', '2', ']'] =
        ['[', '1', ',', ' ', '2', ']']) :=
  ⟨by decide, by decide,
    extractJsonText_wrap_agnostic _ (by decide) (by decide)⟩

/-- C7 counterexample: the valid JSON payload `["```1```"]` contains a
fence marker, so the bare response is mis-parsed as a fenced block: the
extractor yields `1`, while the tagged-wrapped response yields `["` --
the same payload does not parse identically bare and wrapped. -/
theorem extractJsonText_not_wrap_agnostic :
    extractJsonText
        ['[', '"', '`', '`', '`', '1', '`', '`', '`', '"', ']'] = ['1'] ∧
    extractJsonText
        (wrapJson ['[', '"', '`', '`', '`', '1', '`', '`', '`', '"', ']']) =
      ['[', '"'] ∧
    extractJsonText
        (wrapJson ['[', '"', '`', '`', '`', '1', '`', '`', '`', '"', ']']) ≠
      extractJsonText
        ['[', '"', '`', '`', '`', '1', '`', '`', '`', '"', ']'] := by
  refine ⟨by decide, by decide, by decide⟩

/-- C1: starting transcription on a job that is `processing`, `completed`
or `failed` yields HTTP 400 (`InvalidStateTransition`), leaves the store
and the job record untouched, and schedules no processing task (so no
later mutation of the job either). -/
theorem start_transcription_rejects_non_pending
    (js : JobStore) (jid : String) (j : Job) (dirExists : Bool)
    (hj : js jid = some j) (hs : j.status ≠ JobStatus.pending) :
    (start_transcription js jid dirExists).response =
      .error (.httpError 400 "Job already processed or processing") ∧
    (start_transcription js jid dirExists).store = js ∧
    (start_transcription js jid dirExists).store jid = some j ∧
    (start_transcription js jid dirExists).scheduled = [] := by
  unfold start_transcription
  rw [hj]
  simp [hs, hj]

/-- Witness for C1: a concrete store holding one `processing` job. -/
theorem start_transcription_rejects_non_pending_witness :
    (fun k => if k = "j1" then
        some (⟨JobStatus.processing, 2, 0, none, none, "Processing images..."⟩ : Job)
      else none) "j1" =
      some ⟨JobStatus.processing, 2, 0, none, none, "Processing images..."⟩ ∧
    (⟨JobStatus.processing, 2, 0, none, none, "Processing images..."⟩ : Job).status ≠
      JobStatus.pending ∧
    (start_transcription
        (fun k => if k = "j1" then
          some ⟨JobStatus.processing, 2, 0, none, none, "Processing images..."⟩
        else none) "j1" true).response =
      .error (.httpError 400 "Job already processed or processing") ∧
    (start_transcription
        (fun k => if k = "j1" then
          some ⟨JobStatus.processing, 2, 0, none, none, "Processing images..."⟩
        else none) "j1" true).scheduled = [] := by
  have h := start_transcription_rejects_non_pending
    (fun k => if k = "j1" then
      some ⟨JobStatus.processing, 2, 0, none, none, "Processing images..."⟩
    else none) "j1"
    ⟨JobStatus.processing, 2, 0, none, none, "Processing images..."⟩ true
    (by decide) (by decide)
  exact ⟨by decide, by decide, h.1, h.2.2.2⟩

theorem length_insertSorted (s : String) (l : List String) :
    (insertSorted s l).length = l.length + 1 := by
  induction l with
  | nil => rfl
  | cons t rest ih =>
    unfold insertSorted
    by_cases h : s < t
    · simp [h]
    · simp [h, ih]

theorem length_sortNames (l : List String) :
    (sortNames l).length = l.length := by
  induction l with
  | nil => rfl
  | cons n rest ih => simp [sortNames, length_insertSorted, ih]

theorem length_dedupNames_le (l : List String) :
    (dedupNames l).length ≤ l.length := by
  induction l with
  | nil => exact le_refl 0
  | cons n rest ih =>
    unfold dedupNames
    by_cases h : n ∈ rest
    · simp only [if_pos h]
      exact le_trans ih (by simp)
    · simp only [if_neg h, List.length_cons]
      omega

theorem mem_insertSorted (a s : String) (l : List String) :
    a ∈ insertSorted s l ↔ a = s ∨ a ∈ l := by
  induction l with
  | nil => simp [insertSorted]
  | cons t rest ih =>
    unfold insertSorted
    by_cases h : s < t
    · simp [h]
    · simp only [if_neg h, List.mem_cons, ih]
      tauto

theorem mem_sortNames (a : String) (l : List String) :
    a ∈ sortNames l ↔ a ∈ l := by
  induction l with
  | nil => simp [sortNames]
  | cons n rest ih =>
    simp [sortNames, mem_insertSorted, ih]

theorem mem_dedupNames (a : String) (l : List String) :
    a ∈ dedupNames l ↔ a ∈ l := by
  induction l with
  | nil => simp [dedupNames]
  | cons n rest ih =>
    unfold dedupNames
    by_cases h : n ∈ rest
    · rw [if_pos h, ih]
      constructor
      · exact fun ha => List.mem_cons_of_mem n ha
      · intro ha
        rcases List.mem_cons.mp ha with rfl | ha
        · exact h
        · exact ha
    · rw [if_neg h]
      simp [List.mem_cons, ih]

theorem dedupNames_ne_nil (l : List String) (h : l ≠ []) :
    dedupNames l ≠ [] := by
  cases l with
  | nil => exact absurd rfl h
  | cons n rest =>
    have : n ∈ dedupNames (n :: rest) :=
      (mem_dedupNames n (n :: rest)).mpr (List.mem_cons_self n rest)
    exact List.ne_nil_of_mem this

/-- `process_images` never fails: compilation of engine-produced items
always succeeds, so the only outcomes are the empty-directory result and
the compiled batch. -/
theorem process_images_eq (api : String → Except String String)
    (dirFiles : List String) (title ts : String) :
    process_images api dirFiles title ts =
      .ok (transcribe_batch api (imagePathsOf dirFiles),
        compiledTextOf api dirFiles title ts) := by
  rw [compiledTextOf]
  unfold process_images
  by_cases hE : (imagePathsOf dirFiles).isEmpty
  · rw [if_pos hE, if_pos hE]
    rw [List.isEmpty_iff.mp hE]
    rfl
  · rw [if_neg hE, if_neg hE]
    have hc : compile_results
        ((transcribe_batch api (imagePathsOf dirFiles)).map itemDict) title ts =
        .ok (String.intercalate "\n"
          (headerLines title ts (transcribe_batch api (imagePathsOf dirFiles)) ++
            sectionsFrom 1 (transcribe_batch api (imagePathsOf dirFiles)))) := by
      rw [compile_results, compileLines_itemDict]
      rfl
    simp [hc]

/-- C2 amended: along the whole observable state sequence of an
uploaded job and its background run, `processed_images` never exceeds
`total_images` and is monotonically non-decreasing; while the state is
`processing`, the results field is null and the processed count is zero
(so the stored results list length trivially equals it); and the final
state of the run is `completed` with `processed_images` equal to the
number of DISTINCT uploaded file names -- which is at most, but not
always equal to, `total_images`. -/
theorem job_pipeline_count_invariants
    (api : String → Except String String) (js : JobStore) (jid : String)
    (files : List UploadedFile) (title ts : String)
    (js2 : JobStore) (dirFiles : List String) (job0 : Job)
    (hu : upload_images js jid files = .ok (js2, dirFiles))
    (hj : js2 jid = some job0) :
    (∀ jb ∈ job0 :: process_transcription_job api job0 dirFiles title ts,
      jb.processed_images ≤ jb.total_images) ∧
    (job0 :: process_transcription_job api job0 dirFiles title ts).Chain'
      (fun a b => a.processed_images ≤ b.processed_images) ∧
    (∃ jN,
      (job0 :: process_transcription_job api job0 dirFiles title ts).getLast? =
        some jN ∧
      jN.status = JobStatus.completed ∧
      jN.total_images = files.length ∧
      jN.processed_images =
        (dedupNames (files.map (fun f => f.filename))).length ∧
      jN.processed_images ≤ files.length) ∧
    (∀ jb ∈ job0 :: process_transcription_job api job0 dirFiles title ts,
      jb.status = JobStatus.processing →
        jb.results = none ∧ jb.processed_images = 0) := by
  unfold upload_images at hu
  split_ifs at hu with h1 h2 h3
  simp only [Except.ok.injEq, Prod.mk.injEq] at hu
  obtain ⟨hjs2, hdir⟩ := hu
  rw [← hjs2] at hj
  simp only [setJob, eq_self_iff_true, if_true, Option.some.injEq] at hj
  subst hj
  subst hdir
  have hvalid : ∀ f ∈ files,
      pathSuffixLower f.filename ∈ ALLOWED_EXTENSIONS := by
    intro f hf
    exact of_decide_eq_true (List.all_eq_true.mp h2 f hf)
  have himg : imagePathsOf (dedupNames (files.map (fun f => f.filename))) =
      sortNames (dedupNames (files.map (fun f => f.filename))) := by
    unfold imagePathsOf
    apply List.filter_eq_self.mpr
    intro a ha
    apply decide_eq_true
    have ha2 : a ∈ files.map (fun f => f.filename) :=
      (mem_dedupNames a _).mp ((mem_sortNames a _).mp ha)
    obtain ⟨uf, hufm, rfl⟩ := List.mem_map.mp ha2
    exact hvalid uf hufm
  have hRlen : (transcribe_batch api
      (imagePathsOf (dedupNames (files.map (fun f => f.filename))))).length =
      (dedupNames (files.map (fun f => f.filename))).length := by
    rw [transcribe_batch, List.length_map, himg, length_sortNames]
  have hRle : (transcribe_batch api
      (imagePathsOf (dedupNames (files.map (fun f => f.filename))))).length ≤
      files.length := by
    rw [hRlen]
    exact le_trans (length_dedupNames_le _) (le_of_eq (List.length_map _ _))
  simp only [process_transcription_job, process_images_eq]
  refine ⟨?_, ?_, ?_, ?_⟩
  · intro jb hjb
    fin_cases hjb <;> simp [initialJob, hRle]
  · simp [List.chain'_cons, List.chain'_singleton, initialJob]
  · exact ⟨_, rfl, rfl, rfl, by simpa using hRlen, by simpa using hRle⟩
  · intro jb hjb
    fin_cases hjb <;> simp [initialJob]

/-- C2 counterexample: uploading two files that share the name `a.jpg`
creates a job with `total_images = 2`, but the second write overwrites
the first, so the completed run reports `processed_images = 1`:
`processed_count` does not equal `total_count` once the state is
`completed`. -/
theorem job_pipeline_completed_processed_ne_total :
    (∃ js2, upload_images (fun _ => none) "j1" [⟨"a.jpg", 1⟩, ⟨"a.jpg", 2⟩] =
      .ok (js2, ["a.jpg"])) ∧
    (∃ jN,
      (process_transcription_job (fun _ => .ok "text") (initialJob 2)
          ["a.jpg"] "T" "ts").getLast? = some jN ∧
      jN.status = JobStatus.completed ∧
      jN.total_images = 2 ∧
      jN.processed_images = 1 ∧
      jN.processed_images ≠ jN.total_images) := by
  refine ⟨⟨_, rfl⟩, ⟨_, rfl, by decide, by decide, by decide, by decide⟩⟩

/-- Witness for C2 amended: a concrete two-file upload with distinct
names. -/
theorem job_pipeline_count_invariants_witness :
    (∃ js2, upload_images (fun _ => none) "j1" [⟨"b.jpg", 1⟩, ⟨"a.png", 2⟩] =
      .ok (js2, ["b.jpg", "a.png"])) ∧
    (setJob (fun _ => none) "j1" (initialJob 2)) "j1" = some (initialJob 2) ∧
    (∀ jb ∈ initialJob 2 :: process_transcription_job (fun p => .ok ("T-" ++ p))
        (initialJob 2) ["b.jpg", "a.png"] "T" "ts",
      jb.processed_images ≤ jb.total_images) := by
  have h := job_pipeline_count_invariants (fun p => .ok ("T-" ++ p))
    (fun _ => none) "j1" [⟨"b.jpg", 1⟩, ⟨"a.png", 2⟩] "T" "ts"
    (setJob (fun _ => none) "j1" (initialJob 2)) ["b.jpg", "a.png"]
    (initialJob 2) rfl (by decide)
  exact ⟨⟨_, rfl⟩, by decide, h.1⟩

/-- C4 amended: a run over an upload directory containing zero valid
images does not fail: `process_images` returns an empty result list and
empty text without raising, so the job walks through `processing` and
ends `completed` with `results = some []`, `compiled_text = some ""`,
`processed_images = 0` and the success message.  The `failed` state is
reached only when the pipeline raises an exception. -/
theorem process_transcription_job_zero_valid_images
    (api : String → Except String String) (job0 : Job)
    (dirFiles : List String) (title ts : String)
    (h : imagePathsOf dirFiles = []) :
    process_transcription_job api job0 dirFiles title ts =
      [{ job0 with status := JobStatus.processing },
       { job0 with
         status := JobStatus.processing,
         message := "Processing images..." },
       { job0 with
         status := JobStatus.completed,
         message := "Processing images..." },
       { job0 with
         status := JobStatus.completed,
         message := "Processing images...", results := some [] },
       { job0 with
         status := JobStatus.completed,
         message := "Processing images...", results := some [],
         compiled_text := some "" },
       { job0 with
         status := JobStatus.completed,
         message := "Processing images...", results := some [],
         compiled_text := some "", processed_images := 0 },
       { job0 with
         status := JobStatus.completed, results := some [],
         compiled_text := some "", processed_images := 0,
         message := "Transcription completed successfully" }] := by
  simp only [process_transcription_job, process_images_eq, h,
    transcribe_batch, List.map_nil, compiledTextOf, List.isEmpty_nil,
    if_true, List.length_nil]

/-- C4 counterexample: a directory holding only `notes.txt` has zero
valid images, yet the run ends `completed` -- not `failed`. -/
theorem process_transcription_job_zero_valid_images_not_failed :
    imagePathsOf ["notes.txt"] = [] ∧
    (∃ jN,
      (process_transcription_job (fun _ => .ok "t") (initialJob 1)
          ["notes.txt"] "T" "ts").getLast? = some jN ∧
      jN.status = JobStatus.completed ∧
      jN.status ≠ JobStatus.failed ∧
      jN.results = some [] ∧
      jN.compiled_text = some "") := by
  refine ⟨by decide, ⟨_, rfl, by decide, by decide, by decide, by decide⟩⟩

/-- Witness for C4 amended: the `notes.txt`-only directory run equals
the explicit completed trace. -/
theorem process_transcription_job_zero_valid_images_witness :
    imagePathsOf ["notes.txt"] = [] ∧
    process_transcription_job (fun _ => .ok "t") (initialJob 1)
        ["notes.txt"] "T" "ts" =
      [{ initialJob 1 with status := JobStatus.processing },
       { initialJob 1 with
         status := JobStatus.processing,
         message := "Processing images..." },
       { initialJob 1 with
         status := JobStatus.completed,
         message := "Processing images..." },
       { initialJob 1 with
         status := JobStatus.completed,
         message := "Processing images...", results := some [] },
       { initialJob 1 with
         status := JobStatus.completed,
         message := "Processing images...", results := some [],
         compiled_text := some "" },
       { initialJob 1 with
         status := JobStatus.completed,
         message := "Processing images...", results := some [],
         compiled_text := some "", processed_images := 0 },
       { initialJob 1 with
         status := JobStatus.completed, results := some [],
         compiled_text := some "", processed_images := 0,
         message := "Transcription completed successfully" }] :=
  ⟨by decide, process_transcription_job_zero_valid_images
    (fun _ => .ok "t") (initialJob 1) ["notes.txt"] "T" "ts" (by decide)⟩

theorem generate_content_go_failure (api : String → String)
    (parse : String → Except String α) (dump render : α → String)
    (text outDir : String) (ts1 ts2 : List ContentType) (e : String)
    (hfree : ContentType.flashcards ∉ ts1)
    (hfail : parse (String.mk
      (extractJsonText (api (flashcardsPrompt text)).toList)) = .error e) :
    ∀ writes acc,
      generate_content_go api parse dump render text outDir
        (ts1 ++ ContentType.flashcards :: ts2) writes acc =
      (writes ++
        ts1.map (fun t => (typePath outDir t, api (promptOf t text))) ++
        [(withSuffixTxt (outDir ++ "/flashcards.json"),
          api (flashcardsPrompt text))],
       .error ("Failed to parse flashcards JSON: " ++ e)) := by
  have hgf : generate_flashcards api parse dump render text
      (outDir ++ "/flashcards.json") =
      ([(withSuffixTxt (outDir ++ "/flashcards.json"),
          api (flashcardsPrompt text))],
        .error ("Failed to parse flashcards JSON: " ++ e)) := by
    simp only [generate_flashcards]
    rw [hfail]
  induction ts1 with
  | nil =>
    intro writes acc
    have hstep : generate_content_go api parse dump render text outDir
        (ContentType.flashcards :: ts2) writes acc =
        (writes ++ [(withSuffixTxt (outDir ++ "/flashcards.json"),
          api (flashcardsPrompt text))],
         .error ("Failed to parse flashcards JSON: " ++ e)) := by
      simp only [generate_content_go, hgf]
    simpa using hstep
  | cons t rest ih =>
    intro writes acc
    have ht : t ≠ ContentType.flashcards :=
      fun h => hfree (h ▸ List.mem_cons_self t rest)
    have hrest : ContentType.flashcards ∉ rest :=
      fun h => hfree (List.mem_cons_of_mem t h)
    cases t with
    | flashcards => exact absurd rfl ht
    | infographics =>
      have hstep : generate_content_go api parse dump render text outDir
          (ContentType.infographics :: (rest ++ ContentType.flashcards :: ts2))
          writes acc =
          generate_content_go api parse dump render text outDir
            (rest ++ ContentType.flashcards :: ts2)
            (writes ++ [(outDir ++ "/infographic.md",
              api (infographicPrompt text))])
            (acc ++ [("infographics", outDir ++ "/infographic.md")]) := rfl
      rw [List.cons_append, hstep, ih hrest]
      simp [typePath, promptOf]
    | video_script =>
      have hstep : generate_content_go api parse dump render text outDir
          (ContentType.video_script :: (rest ++ ContentType.flashcards :: ts2))
          writes acc =
          generate_content_go api parse dump render text outDir
            (rest ++ ContentType.flashcards :: ts2)
            (writes ++ [(outDir ++ "/video_script.txt",
              api (videoScriptPrompt text))])
            (acc ++ [("video_script", outDir ++ "/video_script.txt")]) := rfl
      rw [List.cons_append, hstep, ih hrest]
      simp [typePath, promptOf]
    | podcast =>
      have hstep : generate_content_go api parse dump render text outDir
          (ContentType.podcast :: (rest ++ ContentType.flashcards :: ts2))
          writes acc =
          generate_content_go api parse dump render text outDir
            (rest ++ ContentType.flashcards :: ts2)
            (writes ++ [(outDir ++ "/podcast_script.txt",
              api (podcastPrompt text))])
            (acc ++ [("podcast", outDir ++ "/podcast_script.txt")]) := rfl
      rw [List.cons_append, hstep, ih hrest]
      simp [typePath, promptOf]

/-- C5 amended: a flashcards JSON parse failure does persist the raw
response as the `.txt` fallback, but the raised error aborts
`generate_content`: the types requested before flashcards have their
files written, the types requested after it are never generated, and no
artifact mapping at all is returned (HTTP 500 at the route). -/
theorem generate_content_flashcards_failure_aborts (api : String → String)
    (parse : String → Except String α) (dump render : α → String)
    (text outDir : String) (ts1 ts2 : List ContentType) (e : String)
    (hfree : ContentType.flashcards ∉ ts1)
    (hfail : parse (String.mk
      (extractJsonText (api (flashcardsPrompt text)).toList)) = .error e) :
    generate_content api parse dump render text
      (ts1 ++ ContentType.flashcards :: ts2) outDir =
      (ts1.map (fun t => (typePath outDir t, api (promptOf t text))) ++
        [(withSuffixTxt (outDir ++ "/flashcards.json"),
          api (flashcardsPrompt text))],
       .error ("Failed to parse flashcards JSON: " ++ e)) := by
  have h := generate_content_go_failure api parse dump render text outDir
    ts1 ts2 e hfree hfail [] []
  simpa [generate_content] using h

/-- Witness for C5 amended: a podcast request before the failing
flashcards is written; the video-script request after it is not. -/
theorem generate_content_flashcards_failure_aborts_witness :
    ContentType.flashcards ∉ [ContentType.podcast] ∧
    (fun _ : String => (.error "Expecting value" : Except String Unit))
      (String.mk (extractJsonText
        ((fun _ : String => "no json here") (flashcardsPrompt "T")).toList)) =
      .error "Expecting value" ∧
    generate_content (fun _ : String => "no json here")
      (fun _ : String => (.error "Expecting value" : Except String Unit))
      (fun _ => "") (fun _ => "") "T"
      [ContentType.podcast, ContentType.flashcards, ContentType.video_script]
      "out" =
      ([ContentType.podcast].map (fun t =>
          (typePath "out" t, (fun _ : String => "no json here") (promptOf t "T"))) ++
        [(withSuffixTxt ("out" ++ "/flashcards.json"),
          (fun _ : String => "no json here") (flashcardsPrompt "T"))],
       .error ("Failed to parse flashcards JSON: " ++ "Expecting value")) := by
  refine ⟨by decide, rfl, ?_⟩
  exact generate_content_flashcards_failure_aborts
    (fun _ : String => "no json here")
    (fun _ : String => (.error "Expecting value" : Except String Unit))
    (fun _ => "") (fun _ => "") "T" "out"
    [ContentType.podcast] [ContentType.video_script] "Expecting value"
    (by decide) rfl

/-- C5 counterexample: with a malformed flashcards response,
`generate_content` on `[flashcards, podcast]` raises and the podcast --
another requested type -- is never generated: no podcast file is
written and no artifact mapping is returned. -/
theorem generate_content_failure_not_isolated :
    (generate_content (fun _ : String => "no json here")
        (fun _ : String => (.error "Expecting value" : Except String Unit))
        (fun _ => "") (fun _ => "") "T"
        [ContentType.flashcards, ContentType.podcast] "out").2 =
      .error "Failed to parse flashcards JSON: Expecting value" ∧
    "out/podcast_script.txt" ∉
      (generate_content (fun _ : String => "no json here")
        (fun _ : String => (.error "Expecting value" : Except String Unit))
        (fun _ => "") (fun _ => "") "T"
        [ContentType.flashcards, ContentType.podcast] "out").1.map Prod.fst ∧
    (generate_content (fun _ : String => "no json here")
        (fun _ : String => (.error "Expecting value" : Except String Unit))
        (fun _ => "") (fun _ => "") "T"
        [ContentType.flashcards, ContentType.podcast] "out").1 =
      [("out/flashcards.txt", "no json here")] := by
  refine ⟨rfl, by decide, by decide⟩

end Museum
